import Mathlib

/-!
Verification of the HackerNews-Podcast backend (`src/backend/src/main.rs`)
against its natural-language specification.

Two components are embedded, following the source:
* the fan-out/fan-in aggregation over HackerNews items
  (`HNClient::get_stories_batch`, `HNClient::get_comments_for_story`,
  and the `get_top_stories` handler), and
* the streaming relay in `generate_stream` (lines 679-757) that re-frames
  the upstream `data: <json>` / `data: [DONE]` lines as server-sent events.

Outbound HTTP and `serde_json` parsing are external collaborators: fetches
are passed in as functions `Nat → Except String _`, and the JSON parser is a
parameter `String → Except String Json`.  All embedded logic is translated
line by line from the Rust source.
-/

/-! ## A model of `serde_json::Value` -/

/-- A structured value, mirroring `serde_json::Value`.  Numbers are modelled
as integers (no claim involves numeric payloads). -/
inductive Json where
  | null : Json
  | bool : Bool → Json
  | num : Int → Json
  | str : String → Json
  | arr : List Json → Json
  | obj : List (String × Json) → Json

/-- `Value::get(key)`: field lookup on an object, `None` on any other value. -/
def Json.get (j : Json) (key : String) : Option Json :=
  match j with
  | Json.obj fields => fields.lookup key
  | _ => none

/-- `Value::as_str()`: the underlying string, when the value is a string. -/
def Json.as_str : Json → Option String
  | Json.str s => some s
  | _ => none

/-! ## String primitives used by the relay loop

The Rust loop works on `response_text.lines()`, `str::trim`,
`str::starts_with` and byte slicing `&line[6..]`.  They are embedded here as
character-list operations so that every definition evaluates inside the
kernel. -/

/-- Split a character stream at `\n` separators (helper for `rustLines`). -/
def splitNl : List Char → List Char → List (List Char)
  | [], acc => [acc.reverse]
  | c :: cs, acc =>
    if c = '\n' then acc.reverse :: splitNl cs []
    else splitNl cs (c :: acc)

/-- Remove one trailing `\r`, as `str::lines` does for `\r\n` endings. -/
def stripCr (l : List Char) : List Char :=
  match l.reverse with
  | '\r' :: rest => rest.reverse
  | _ => l

/-- `str::lines`: split at `\n` (tolerating `\r\n`); the final line ending is
optional, so a trailing empty segment is not a line, and the empty string
has no lines. -/
def rustLines (s : String) : List String :=
  match (splitNl s.data []).reverse with
  | [] :: rest => rest.reverse.map (fun cs => String.mk (stripCr cs))
  | parts => parts.reverse.map (fun cs => String.mk (stripCr cs))

/-- `str::trim`: drop whitespace from both ends. -/
def rustTrim (s : String) : String :=
  String.mk (((s.data.dropWhile Char.isWhitespace).reverse.dropWhile
    Char.isWhitespace).reverse)

/-- `str::starts_with` for string patterns. -/
def strStartsWith (s pat : String) : Bool :=
  decide (s.data.take pat.data.length = pat.data)

/-- Byte/char slicing `&line[n..]` (the sliced text here is ASCII). -/
def strDrop (s : String) (n : Nat) : String :=
  String.mk (s.data.drop n)

/-! ## The streaming relay (`generate_stream`, lines 679-757) -/

/-- An outgoing server-sent event: either a forwarded data payload or the
terminal `[DONE]` sentinel (`Event::default().data("[DONE]")`). -/
inductive RelayEvent where
  | data : Json → RelayEvent
  | done : RelayEvent

/-- Whether an event is the terminal sentinel. -/
def RelayEvent.isDone : RelayEvent → Bool
  | RelayEvent.done => true
  | RelayEvent.data _ => false

/-- The diagnostic frame synthesized when a `data:` payload fails to parse
(`StreamingResponse` with `type = "thinking_update"`; the `icon` and `error`
fields are `None` and skipped during serialization). -/
def parseErrorEvent (e : String) : Json :=
  Json.obj [("type", Json.str "thinking_update"),
            ("content", Json.str ("Error parsing stream data: " ++ e))]

/-- The classification step of the relay loop (lines 696-738): dispatch on
`json_data.get("type").and_then(|t| t.as_str())`.  For the three known
discriminators the event is yielded only inside
`if let Some(content) = json_data.get("content")`; other or absent
discriminators are forwarded as-is. -/
def classifyEvents (jsonData : Json) : List RelayEvent :=
  match Option.bind (jsonData.get "type") Json.as_str with
  | some messageType =>
    if messageType == "thinking_update" then
      if (jsonData.get "content").isSome then [RelayEvent.data jsonData] else []
    else if messageType == "final_response" then
      if (jsonData.get "content").isSome then [RelayEvent.data jsonData] else []
    else if messageType == "metadata" then
      if (jsonData.get "content").isSome then [RelayEvent.data jsonData] else []
    else [RelayEvent.data jsonData]
  | none => [RelayEvent.data jsonData]

/-- The relay loop over the (already split) input lines, lines 682-756 of the
source.  Each iteration trims the line (`let line = line.trim()`), skips
blank lines and the verbatim `data: [DONE]` line (`continue`), requires the
`data: ` prefix, breaks out of the whole loop when the post-prefix remainder
trims to `[DONE]`, and otherwise parses and classifies; after the loop one
`[DONE]` completion event is yielded. -/
def relayLines (parse : String → Except String Json) :
    List String → List RelayEvent
  | [] => [RelayEvent.done]
  | rawLine :: rest =>
    if rustTrim rawLine == "" || rustTrim rawLine == "data: [DONE]" then
      relayLines parse rest
    else if strStartsWith (rustTrim rawLine) "data: " then
      if rustTrim (strDrop (rustTrim rawLine) 6) == "[DONE]" then
        [RelayEvent.done]
      else
        match parse (strDrop (rustTrim rawLine) 6) with
        | Except.ok jsonData => classifyEvents jsonData ++ relayLines parse rest
        | Except.error e =>
          RelayEvent.data (parseErrorEvent e) :: relayLines parse rest
    else relayLines parse rest

/-- `generate_stream`'s produced event sequence for a fully-buffered upstream
response text, with the JSON parser passed in as a collaborator. -/
def generateStream (parse : String → Except String Json) (text : String) :
    List RelayEvent :=
  relayLines parse (rustLines text)

/-- Whether a line makes the relay loop `break` (line 692): a non-skipped
`data: ` line whose remainder trims to `[DONE]`. -/
def lineBreaks (rawLine : String) : Bool :=
  !(rustTrim rawLine == "" || rustTrim rawLine == "data: [DONE]") &&
    strStartsWith (rustTrim rawLine) "data: " &&
    (rustTrim (strDrop (rustTrim rawLine) 6) == "[DONE]")

/-- The events one non-breaking line contributes, read off the loop body. -/
def lineEvents (parse : String → Except String Json) (rawLine : String) :
    List RelayEvent :=
  if rustTrim rawLine == "" || rustTrim rawLine == "data: [DONE]" then []
  else if strStartsWith (rustTrim rawLine) "data: " then
    if rustTrim (strDrop (rustTrim rawLine) 6) == "[DONE]" then []
    else
      match parse (strDrop (rustTrim rawLine) 6) with
      | Except.ok jsonData => classifyEvents jsonData
      | Except.error e => [RelayEvent.data (parseErrorEvent e)]
  else []

/-! ## The fan-out aggregator (`HNClient`, lines 57-158) -/

/-- A HackerNews story record (`HNStory`).  The Rust field `by` is a Lean
keyword and is embedded as `by_user`. -/
structure HNStory where
  id : Nat
  title : Option String
  url : Option String
  text : Option String
  score : Option Nat
  by_user : Option String
  time : Option Nat
  descendants : Option Nat
  kids : Option (List Nat)
deriving DecidableEq, Repr

/-- A HackerNews comment record (`HNComment`); `by` is embedded as
`by_user`. -/
structure HNComment where
  id : Nat
  by_user : Option String
  time : Option Nat
  text : Option String
  kids : Option (List Nat)
  parent : Option Nat
deriving DecidableEq, Repr

/-- `futures::future::try_join_all` over already-determined fetch outcomes:
all results in order when every future succeeds, an error as soon as any
future fails (the sequential model surfaces the first error in list
order; every claim only depends on there being an error). -/
def try_join_all {ε α : Type} : List (Except ε α) → Except ε (List α)
  | [] => Except.ok []
  | Except.ok a :: rest =>
    match try_join_all rest with
    | Except.ok xs => Except.ok (a :: xs)
    | Except.error e => Except.error e
  | Except.error e :: _ => Except.error e

/-- `HNClient::get_comments_for_story` (lines 98-107).  The per-id fetch
`self.get_comment(id)` is the external transport, passed in as
`get_comment`. -/
def get_comments_for_story (get_comment : Nat → Except String HNComment)
    (story : HNStory) : Except String (List HNComment) :=
  match story.kids with
  | some kids =>
    match try_join_all (kids.map (fun id => get_comment id)) with
    | Except.ok comments =>
      Except.ok (comments.filter (fun c => c.text.isSome))
    | Except.error e => Except.error e
  | none => Except.ok []

/-- `HNClient::get_stories_batch` (lines 92-96), with `self.get_story`
passed in as the external transport. -/
def get_stories_batch (get_story : Nat → Except String HNStory)
    (ids : List Nat) : Except String (List HNStory) :=
  try_join_all (ids.map (fun id => get_story id))

/-- The `get_top_stories` handler (lines 118-158): fetch the upstream id
list, keep the prefix `[..min(50, len)]`, batch-fetch those stories and
keep the ones whose `title` is present and non-empty.  The two upstream
effects (`client.get_top_stories()` and `client.get_story`) are passed in
as values. -/
def get_top_stories (fetch_top_ids : Except String (List Nat))
    (get_story : Nat → Except String HNStory) :
    Except String (List HNStory) :=
  match fetch_top_ids with
  | Except.ok story_ids =>
    match get_stories_batch get_story
        (story_ids.take (min 50 story_ids.length)) with
    | Except.ok stories =>
      Except.ok (stories.filter
        (fun story => story.title.isSome && !(story.title.getD "" == "")))
    | Except.error e => Except.error e
  | Except.error e => Except.error e

deriving instance DecidableEq for Except

/-! ## Shared lemmas about the embedded operations -/

/-- If any element of the joined list is an error, `try_join_all` is an
error. -/
theorem try_join_all_error {ε α : Type} (l : List (Except ε α))
    (h : ∃ x ∈ l, ∃ e, x = Except.error e) :
    ∃ e, try_join_all l = Except.error e := by
  induction l with
  | nil => rcases h with ⟨x, hx, _⟩; cases hx
  | cons y rest ih =>
    cases y with
    | error e => exact ⟨e, rfl⟩
    | ok a =>
      rcases h with ⟨x, hx, e, hxe⟩
      rcases List.mem_cons.mp hx with h1 | h1
      · rw [h1] at hxe; simp at hxe
      · obtain ⟨e2, he2⟩ := ih ⟨x, h1, e, hxe⟩
        refine ⟨e2, ?_⟩
        simp only [try_join_all, he2]

/-- A successful `try_join_all` has one result per input future. -/
theorem try_join_all_length {ε α : Type} (l : List (Except ε α))
    (xs : List α) (h : try_join_all l = Except.ok xs) :
    xs.length = l.length := by
  induction l generalizing xs with
  | nil =>
    simp only [try_join_all] at h
    cases h; rfl
  | cons y rest ih =>
    cases y with
    | error e => simp [try_join_all] at h
    | ok a =>
      simp only [try_join_all] at h
      cases hr : try_join_all rest with
      | ok ys =>
        rw [hr] at h
        injection h with h2
        subst h2
        simp [ih ys hr]
      | error e => rw [hr] at h; cases h

/-- When every fetch succeeds pointwise, `try_join_all` returns the mapped
results in input order. -/
theorem try_join_all_map_ok {ε α β : Type} (f : β → Except ε α) (g : β → α)
    (ks : List β) (h : ∀ k ∈ ks, f k = Except.ok (g k)) :
    try_join_all (ks.map (fun k => f k)) = Except.ok (ks.map g) := by
  induction ks with
  | nil => rfl
  | cons k ks ih =>
    have hk : f k = Except.ok (g k) := h k (List.mem_cons_self k ks)
    have hrest := ih (fun x hx => h x (List.mem_cons_of_mem k hx))
    simp only [List.map_cons, hk, try_join_all, hrest]

/-- When every element is a success, `try_join_all` succeeds. -/
theorem try_join_all_total {ε α : Type} (l : List (Except ε α))
    (h : ∀ x ∈ l, ∃ a, x = Except.ok a) :
    ∃ xs, try_join_all l = Except.ok xs := by
  induction l with
  | nil => exact ⟨[], rfl⟩
  | cons y rest ih =>
    obtain ⟨a, ha⟩ := h y (List.mem_cons_self y rest)
    obtain ⟨xs, hxs⟩ := ih (fun x hx => h x (List.mem_cons_of_mem y hx))
    subst ha
    exact ⟨a :: xs, by simp only [try_join_all, hxs]⟩

/-- The classification step forwards the original frame or nothing. -/
theorem classifyEvents_cases (j : Json) :
    classifyEvents j = [] ∨ classifyEvents j = [RelayEvent.data j] := by
  unfold classifyEvents
  repeat' first
    | exact Or.inl rfl
    | exact Or.inr rfl
    | split

/-- A single non-breaking line contributes no sentinel event. -/
theorem lineEvents_shape (parse : String → Except String Json) (l : String) :
    lineEvents parse l = [] ∨
      ∃ j, lineEvents parse l = [RelayEvent.data j] := by
  unfold lineEvents
  repeat' first
    | exact Or.inl rfl
    | exact Or.inr ⟨_, rfl⟩
    | exact (classifyEvents_cases _).imp (fun h => h) (fun h => ⟨_, h⟩)
    | split

/-- The relay output is the per-line events, in line order, over the prefix
of lines before the first breaking line, followed by one sentinel. -/
theorem relayLines_decomp (parse : String → Except String Json)
    (ls : List String) :
    relayLines parse ls =
      ((ls.takeWhile (fun l => !lineBreaks l)).map (lineEvents parse)).flatten
        ++ [RelayEvent.done] := by
  induction ls with
  | nil => rfl
  | cons l rest ih =>
    cases hA : (rustTrim l == "" || rustTrim l == "data: [DONE]") with
    | true =>
      have hb : lineBreaks l = false := by simp [lineBreaks, hA]
      have he : lineEvents parse l = [] := by simp [lineEvents, hA]
      have hr : relayLines parse (l :: rest) = relayLines parse rest := by
        simp [relayLines, hA]
      rw [hr, List.takeWhile_cons, hb]
      simp [he, ih]
    | false =>
      cases hB : strStartsWith (rustTrim l) "data: " with
      | false =>
        have hb : lineBreaks l = false := by simp [lineBreaks, hB]
        have he : lineEvents parse l = [] := by simp [lineEvents, hA, hB]
        have hr : relayLines parse (l :: rest) = relayLines parse rest := by
          simp [relayLines, hA, hB]
        rw [hr, List.takeWhile_cons, hb]
        simp [he, ih]
      | true =>
        cases hC : (rustTrim (strDrop (rustTrim l) 6) == "[DONE]") with
        | true =>
          have hb : lineBreaks l = true := by simp [lineBreaks, hA, hB, hC]
          have hr : relayLines parse (l :: rest) = [RelayEvent.done] := by
            simp [relayLines, hA, hB, hC]
          rw [hr, List.takeWhile_cons, hb]
          simp
        | false =>
          have hb : lineBreaks l = false := by simp [lineBreaks, hC]
          cases hp : parse (strDrop (rustTrim l) 6) with
          | ok j =>
            have he : lineEvents parse l = classifyEvents j := by
              simp [lineEvents, hA, hB, hC, hp]
            have hr : relayLines parse (l :: rest) =
                classifyEvents j ++ relayLines parse rest := by
              simp [relayLines, hA, hB, hC, hp]
            rw [hr, List.takeWhile_cons, hb]
            simp [he, ih]
          | error e =>
            have he : lineEvents parse l =
                [RelayEvent.data (parseErrorEvent e)] := by
              simp [lineEvents, hA, hB, hC, hp]
            have hr : relayLines parse (l :: rest) =
                RelayEvent.data (parseErrorEvent e) :: relayLines parse rest := by
              simp [relayLines, hA, hB, hC, hp]
            rw [hr, List.takeWhile_cons, hb]
            simp [he, ih]

/-! ## Concrete fixtures for witnesses and counterexamples -/

/-- A concrete stand-in for the external `serde_json` parser, recognizing
the payloads used in the concrete scenarios below and failing on anything
else. -/
def sampleParse : String → Except String Json := fun s =>
  if s == "null" then Except.ok Json.null
  else if s == "\x7b\"type\":\"final_response\",\"content\":\"ok\"\x7d" then
    Except.ok (Json.obj [("type", Json.str "final_response"),
      ("content", Json.str "ok")])
  else if s == "\x7b\"type\":\"metadata\"\x7d" then
    Except.ok (Json.obj [("type", Json.str "metadata")])
  else Except.error "invalid"

/-- A comment with only `id` and `text` populated. -/
def mkComment (i : Nat) (t : Option String) : HNComment :=
  ⟨i, none, none, t, none, none⟩

/-- A story with only `id`, `title` and `kids` populated. -/
def mkStory (i : Nat) (title : Option String) (kids : Option (List Nat)) :
    HNStory :=
  ⟨i, title, none, none, none, none, none, none, kids⟩

/-- Child fetches delivering texts `some "a"`, `none`, `some ""`,
`some "b"` for ids 1-4. -/
def c1_fetch : Nat → Except String HNComment := fun id =>
  if id = 1 then Except.ok (mkComment 1 (some "a"))
  else if id = 2 then Except.ok (mkComment 2 none)
  else if id = 3 then Except.ok (mkComment 3 (some ""))
  else Except.ok (mkComment 4 (some "b"))

/-- A root story with children 1-4. -/
def c1_story : HNStory := mkStory 100 none (some [1, 2, 3, 4])

/-- The per-id results of `c1_fetch`, as a total function. -/
def c10_item : Nat → HNComment := fun id =>
  if id = 1 then mkComment 1 (some "a")
  else if id = 2 then mkComment 2 none
  else if id = 3 then mkComment 3 (some "")
  else mkComment 4 (some "b")

/-- Child fetches where exactly id 2 fails. -/
def c4_fetch : Nat → Except String HNComment := fun id =>
  if id = 2 then Except.error "boom" else Except.ok (mkComment id (some "x"))

/-- A root story with children 1-3. -/
def c4_story : HNStory := mkStory 200 none (some [1, 2, 3])

/-- Story fetches where exactly id 2 fails. -/
def c4_get_story : Nat → Except String HNStory := fun id =>
  if id = 2 then Except.error "boom"
  else Except.ok (mkStory id (some "t") none)

/-- A root story with an explicitly empty child list. -/
def c6_story : HNStory := mkStory 300 none (some [])

/-- Story fetches that always succeed with a titled story. -/
def c7_fetch : Nat → Except String HNStory := fun id =>
  Except.ok (mkStory id (some "t") none)

/-- An upstream id list of length 10. -/
def c7_ids : List Nat := [0, 1, 2, 3, 4, 5, 6, 7, 8, 9]

/-! ## The claims -/

/-- C1 is refuted on the code: the comment filter in
`get_comments_for_story` is `c.text.is_some()` alone — it never checks
emptiness, so the child with `text = Some("")` is retained and the claimed
result `[{text:"a"}, {text:"b"}]` is not produced. -/
theorem c1_filter_counterexample :
    get_comments_for_story c1_fetch c1_story =
      Except.ok [mkComment 1 (some "a"), mkComment 3 (some ""),
        mkComment 4 (some "b")] ∧
    get_comments_for_story c1_fetch c1_story ≠
      Except.ok [mkComment 1 (some "a"), mkComment 4 (some "b")] :=
  ⟨rfl, by decide⟩

/-- C1 (amended): on a successful join, a child item is retained by the
content filter if and only if its `text` field is present — emptiness is
not checked — and for the children `[{text:"a"}, {text:None}, {text:""},
{text:"b"}]` the result is `[{text:"a"}, {text:""}, {text:"b"}]` in that
order. -/
theorem c1_filter_amended (get_comment : Nat → Except String HNComment)
    (story : HNStory) (ks : List Nat) (cs : List HNComment)
    (hk : story.kids = some ks)
    (hj : try_join_all (ks.map (fun id => get_comment id)) = Except.ok cs) :
    get_comments_for_story get_comment story =
      Except.ok (cs.filter (fun c => c.text.isSome)) ∧
    ∀ c : HNComment, c ∈ cs.filter (fun c => c.text.isSome) ↔
      c ∈ cs ∧ c.text.isSome := by
  constructor
  · simp [get_comments_for_story, hk, hj]
  · intro c
    simp [List.mem_filter]

/-- C1 witness: evaluating the amended statement on the four concrete
children. -/
theorem c1_filter_amended_witness :
    get_comments_for_story c1_fetch c1_story =
      Except.ok ([mkComment 1 (some "a"), mkComment 2 none,
        mkComment 3 (some ""), mkComment 4 (some "b")].filter
          (fun c => c.text.isSome)) :=
  (c1_filter_amended c1_fetch c1_story [1, 2, 3, 4]
    [mkComment 1 (some "a"), mkComment 2 none, mkComment 3 (some ""),
      mkComment 4 (some "b")] rfl (by decide)).1

/-- C2 is refuted on the code: the loop skips the exact line
`data: [DONE]` with `continue` (line 685) before the `break` check is ever
reached, so a `data:` line after the verbatim sentinel line is still
processed and produces an event. -/
theorem c2_sentinel_counterexample :
    generateStream sampleParse "data: [DONE]\ndata: null" =
      [RelayEvent.data Json.null, RelayEvent.done] ∧
    generateStream sampleParse "data: [DONE]\ndata: null" ≠
      [RelayEvent.done] := by
  refine ⟨rfl, fun h => ?_⟩
  have h2 : RelayEvent.data Json.null :: [RelayEvent.done] =
      [RelayEvent.done] := h
  injection h2 with h3 _
  cases h3

/-- C2 (amended): the exact line `data: [DONE]` is skipped and subsequent
lines continue to be processed; frame processing stops for the whole call
only on a line that starts with `data: ` and whose post-prefix remainder
trims to `[DONE]` without the whole trimmed line being exactly
`data: [DONE]` (for example `data:  [DONE]` with doubled space). -/
theorem c2_sentinel_amended (parse : String → Except String Json)
    (rest : List String) (l : String)
    (h1 : ¬ rustTrim l = "")
    (h2 : ¬ rustTrim l = "data: [DONE]")
    (h3 : strStartsWith (rustTrim l) "data: " = true)
    (h4 : rustTrim (strDrop (rustTrim l) 6) = "[DONE]") :
    relayLines parse (l :: rest) = [RelayEvent.done] ∧
    ∀ rest2 : List String,
      relayLines parse ("data: [DONE]" :: rest2) = relayLines parse rest2 := by
  constructor
  · simp [relayLines, h1, h2, h3, h4]
  · intro rest2
    rfl

/-- C2 witness: the whitespace variant `data:  [DONE]` really terminates
the relay, discarding the following valid line. -/
theorem c2_sentinel_amended_witness :
    relayLines sampleParse ["data:  [DONE]", "data: null"] =
      [RelayEvent.done] :=
  (c2_sentinel_amended sampleParse ["data: null"] "data:  [DONE]"
    (by decide) (by decide) (by decide) (by decide)).1

/-- C3 is refuted on the code: a parsed frame whose `type` is one of the
known discriminators is forwarded only inside
`if let Some(content) = json_data.get("content")`, so the known-type frame
`{"type":"metadata"}` with no `content` field is dropped and only the
terminal sentinel is emitted. -/
theorem c3_forward_counterexample :
    generateStream sampleParse "data: \x7b\"type\":\"metadata\"\x7d" =
      [RelayEvent.done] ∧
    classifyEvents (Json.obj [("type", Json.str "metadata")]) = [] :=
  ⟨rfl, rfl⟩

/-- C3 (amended): a successfully parsed frame with an absent or
unrecognized discriminator is always forwarded with the original value;
a frame whose `type` is `thinking_update`, `final_response` or `metadata`
is forwarded unmodified if and only if it carries a `content` field, and
is dropped otherwise. -/
theorem c3_forward_amended (j : Json) :
    (Option.bind (j.get "type") Json.as_str = none →
      classifyEvents j = [RelayEvent.data j]) ∧
    (∀ mt : String, Option.bind (j.get "type") Json.as_str = some mt →
      ¬ mt = "thinking_update" → ¬ mt = "final_response" →
      ¬ mt = "metadata" → classifyEvents j = [RelayEvent.data j]) ∧
    (∀ mt : String, Option.bind (j.get "type") Json.as_str = some mt →
      (mt = "thinking_update" ∨ mt = "final_response" ∨ mt = "metadata") →
      classifyEvents j =
        (if (j.get "content").isSome then [RelayEvent.data j] else [])) := by
  refine ⟨?_, ?_, ?_⟩
  · intro hnone
    simp [classifyEvents, hnone]
  · intro mt hmt hn1 hn2 hn3
    simp [classifyEvents, hmt, hn1, hn2, hn3]
  · intro mt hmt hknown
    rcases hknown with h | h | h <;> subst h <;> simp [classifyEvents, hmt]

/-- C3 witness: the content-free `metadata` frame instantiates the amended
classification law and is dropped. -/
theorem c3_forward_amended_witness :
    classifyEvents (Json.obj [("type", Json.str "metadata")]) =
      (if ((Json.obj [("type", Json.str "metadata")]).get "content").isSome
        then [RelayEvent.data (Json.obj [("type", Json.str "metadata")])]
        else []) :=
  (c3_forward_amended (Json.obj [("type", Json.str "metadata")])).2.2
    "metadata" rfl (Or.inr (Or.inr rfl))

/-- C4: the join in `get_comments_for_story` and `get_stories_batch` is
`try_join_all`, so one failing child fetch among N fails the whole call
with the propagated fetch error (the `ChildFetchFailed` condition reported
by the handler) and no partial item list is ever returned, regardless of
how the other fetches fared. -/
theorem c4_all_or_nothing (get_comment : Nat → Except String HNComment)
    (get_story : Nat → Except String HNStory) (story : HNStory)
    (ks ids : List Nat)
    (hk : story.kids = some ks)
    (hfail : ∃ k ∈ ks, ∃ e, get_comment k = Except.error e)
    (hfail2 : ∃ i ∈ ids, ∃ e, get_story i = Except.error e) :
    (∃ e, get_comments_for_story get_comment story = Except.error e) ∧
    (∀ cs, get_comments_for_story get_comment story ≠ Except.ok cs) ∧
    (∃ e, get_stories_batch get_story ids = Except.error e) := by
  have hj : ∃ e, try_join_all (ks.map (fun id => get_comment id)) =
      Except.error e := by
    apply try_join_all_error
    obtain ⟨k, hkmem, e, he⟩ := hfail
    exact ⟨get_comment k, List.mem_map_of_mem _ hkmem, e, he⟩
  obtain ⟨e, hjj⟩ := hj
  have h1 : get_comments_for_story get_comment story = Except.error e := by
    simp [get_comments_for_story, hk, hjj]
  refine ⟨⟨e, h1⟩, ?_, ?_⟩
  · intro cs hcs
    rw [h1] at hcs
    cases hcs
  · show ∃ e, try_join_all (ids.map (fun id => get_story id)) = Except.error e
    apply try_join_all_error
    obtain ⟨i, himem, e2, he2⟩ := hfail2
    exact ⟨get_story i, List.mem_map_of_mem _ himem, e2, he2⟩

/-- C4 witness: with child 2 of three failing, the whole aggregation fails
and the two successful children are discarded. -/
theorem c4_all_or_nothing_witness :
    get_comments_for_story c4_fetch c4_story ≠
      Except.ok [mkComment 1 (some "x"), mkComment 3 (some "x")] :=
  (c4_all_or_nothing c4_fetch c4_get_story c4_story [1, 2, 3] [1, 2, 3] rfl
    ⟨2, by decide, "boom", rfl⟩ ⟨2, by decide, "boom", rfl⟩).2.1
    [mkComment 1 (some "x"), mkComment 3 (some "x")]

/-- C5: for every parser and input text, the relay output is exactly the
per-line event lists, concatenated in input line order over the prefix of
lines before the first terminating line, followed by the terminal
sentinel; in particular the sentinel is the last element and occurs
exactly once. -/
theorem c5_relay_termination (parse : String → Except String Json)
    (text : String) :
    generateStream parse text =
      (((rustLines text).takeWhile (fun l => !lineBreaks l)).map
        (lineEvents parse)).flatten ++ [RelayEvent.done] ∧
    (generateStream parse text).getLast? = some RelayEvent.done ∧
    (generateStream parse text).countP (fun ev => ev.isDone) = 1 := by
  have hd := relayLines_decomp parse (rustLines text)
  have hg : generateStream parse text =
      (((rustLines text).takeWhile (fun l => !lineBreaks l)).map
        (lineEvents parse)).flatten ++ [RelayEvent.done] := hd
  refine ⟨hg, ?_, ?_⟩
  · rw [hg]
    exact List.getLast?_concat _
  · rw [hg, List.countP_append]
    have h0 : (((rustLines text).takeWhile (fun l => !lineBreaks l)).map
        (lineEvents parse)).flatten.countP (fun ev => ev.isDone) = 0 := by
      rw [List.countP_eq_zero]
      intro ev hev
      rw [List.mem_flatten] at hev
      obtain ⟨evs, hevs, hin⟩ := hev
      rw [List.mem_map] at hevs
      obtain ⟨l, _, rfl⟩ := hevs
      rcases lineEvents_shape parse l with h | ⟨j, h⟩
      · rw [h] at hin; cases hin
      · rw [h] at hin
        rw [List.mem_singleton] at hin
        subst hin
        simp [RelayEvent.isDone]
    rw [h0]
    rfl

/-- C6: a root with an absent or empty child-id list yields an immediate
empty success, and the result does not depend on the child-fetch function
at all — no child fetch is consulted. -/
theorem c6_empty_kids (story : HNStory)
    (h : story.kids = none ∨ story.kids = some []) :
    (∀ get_comment : Nat → Except String HNComment,
      get_comments_for_story get_comment story = Except.ok []) ∧
    (∀ f g : Nat → Except String HNComment,
      get_comments_for_story f story = get_comments_for_story g story) := by
  have h1 : ∀ get_comment : Nat → Except String HNComment,
      get_comments_for_story get_comment story = Except.ok [] := by
    intro gc
    rcases h with h | h <;> simp [get_comments_for_story, h, try_join_all]
  exact ⟨h1, fun f g => (h1 f).trans (h1 g).symm⟩

/-- C6 witness: the empty-kids story succeeds with `[]` even under a fetch
function that fails on id 2. -/
theorem c6_empty_kids_witness :
    get_comments_for_story c4_fetch c6_story = Except.ok [] :=
  (c6_empty_kids c6_story (Or.inr rfl)).1 c4_fetch

/-- C7: the top-stories operation takes the prefix `[..min(50, len)]` of
the upstream id list, so a successful result holds at most
`min 50 (length ids)` items — at most 10 items for a 10-id list — and a
short id list alone never causes an error: whenever every story fetch
succeeds, the whole call succeeds. -/
theorem c7_top_limit (ids : List Nat)
    (get_story : Nat → Except String HNStory) (stories : List HNStory)
    (hok : get_top_stories (Except.ok ids) get_story = Except.ok stories) :
    stories.length ≤ min 50 ids.length ∧
    (ids.length = 10 → stories.length ≤ 10) ∧
    (∀ f : Nat → Except String HNStory,
      (∀ i ∈ ids, ∃ s, f i = Except.ok s) →
      ∃ l, get_top_stories (Except.ok ids) f = Except.ok l) := by
  have hlen : stories.length ≤ min 50 ids.length := by
    simp only [get_top_stories] at hok
    cases hb : get_stories_batch get_story (ids.take (min 50 ids.length)) with
    | error e => rw [hb] at hok; cases hok
    | ok batch =>
      rw [hb] at hok
      injection hok with h2
      subst h2
      have hbl : batch.length =
          ((ids.take (min 50 ids.length)).map
            (fun id => get_story id)).length :=
        try_join_all_length _ _ hb
      rw [List.length_map, List.length_take] at hbl
      calc (batch.filter (fun story =>
              story.title.isSome && !(story.title.getD "" == ""))).length
          ≤ batch.length := List.length_filter_le _ _
        _ ≤ min 50 ids.length := by omega
  refine ⟨hlen, ?_, ?_⟩
  · intro h10
    rw [h10] at hlen
    omega
  · intro f hf
    obtain ⟨xs, hxs⟩ := try_join_all_total
      ((ids.take (min 50 ids.length)).map (fun id => f id))
      (by
        intro x hx
        rw [List.mem_map] at hx
        obtain ⟨i, hi, rfl⟩ := hx
        exact hf i (List.mem_of_mem_take hi))
    refine ⟨xs.filter (fun story =>
      story.title.isSome && !(story.title.getD "" == "")), ?_⟩
    have hb : get_stories_batch f (ids.take (min 50 ids.length)) =
        Except.ok xs := hxs
    simp only [get_top_stories, hb]

/-- C7 witness: an upstream id list of length 10 with all fetches
succeeding yields exactly the 10 titled stories — at most 10 items, no
error. -/
theorem c7_top_limit_witness :
    (c7_ids.map (fun i => mkStory i (some "t") none)).length ≤ 10 :=
  (c7_top_limit c7_ids c7_fetch
    (c7_ids.map (fun i => mkStory i (some "t") none)) (by decide)).2.1 rfl

/-- C8: a `data: ` line whose remainder fails parsing does not abort the
relay: exactly one synthesized diagnostic event is emitted, its frame is
classified as an informational `thinking_update` carrying the parse
failure description, and the remaining lines are processed unchanged. -/
theorem c8_parse_recovery (parse : String → Except String Json)
    (rest : List String) (l : String) (e : String)
    (h1 : ¬ rustTrim l = "")
    (h2 : ¬ rustTrim l = "data: [DONE]")
    (h3 : strStartsWith (rustTrim l) "data: " = true)
    (h4 : ¬ rustTrim (strDrop (rustTrim l) 6) = "[DONE]")
    (h5 : parse (strDrop (rustTrim l) 6) = Except.error e) :
    relayLines parse (l :: rest) =
      RelayEvent.data (parseErrorEvent e) :: relayLines parse rest ∧
    (parseErrorEvent e).get "type" = some (Json.str "thinking_update") := by
  constructor
  · simp [relayLines, h1, h2, h3, h4, h5]
  · rfl

/-- C8 witness: the specification's example — a malformed line, then a
valid `final_response` frame, then `data: [DONE]` — yields the diagnostic,
the forwarded frame and the terminal sentinel, in that order. -/
theorem c8_parse_recovery_witness :
    relayLines sampleParse ["data: \x7bbad",
      "data: \x7b\"type\":\"final_response\",\"content\":\"ok\"\x7d",
      "data: [DONE]"] =
      [RelayEvent.data (parseErrorEvent "invalid"),
        RelayEvent.data (Json.obj [("type", Json.str "final_response"),
          ("content", Json.str "ok")]),
        RelayEvent.done] := by
  rw [(c8_parse_recovery sampleParse
    ["data: \x7b\"type\":\"final_response\",\"content\":\"ok\"\x7d",
      "data: [DONE]"]
    "data: \x7bbad" "invalid" (by decide) (by decide) (by decide)
    (by decide) rfl).1]
  rfl

/-- C9: the relay holds no cross-call state — its output is a pure
function of the upstream response text (and the parser), so relaying equal
texts produces identical event sequences. -/
theorem c9_relay_deterministic (parse : String → Except String Json)
    (t1 t2 : String) (h : t1 = t2) :
    generateStream parse t1 = generateStream parse t2 := by
  rw [h]

/-- C9 witness: two runs on the same concrete text coincide. -/
theorem c9_relay_deterministic_witness :
    generateStream sampleParse "data: null" =
      generateStream sampleParse "data: null" :=
  c9_relay_deterministic sampleParse "data: null" "data: null" rfl

/-- C10: when every child fetch succeeds, `get_comments_for_story` returns
the fetched items filtered by text presence in exactly the order of the
root's `kids` list — the join preserves the order of the issued fetches
and the filter preserves relative order. -/
theorem c10_order_preserved (get_comment : Nat → Except String HNComment)
    (story : HNStory) (ks : List Nat) (item : Nat → HNComment)
    (hk : story.kids = some ks)
    (hok : ∀ k ∈ ks, get_comment k = Except.ok (item k)) :
    get_comments_for_story get_comment story =
      Except.ok ((ks.map item).filter (fun c => c.text.isSome)) := by
  have hj := try_join_all_map_ok (fun id => get_comment id) item ks hok
  simp [get_comments_for_story, hk, hj]

/-- C10 witness: the kids list `[1, 2, 3, 4]` yields the retained items in
the same relative order. -/
theorem c10_order_preserved_witness :
    get_comments_for_story c1_fetch c1_story =
      Except.ok (([1, 2, 3, 4].map c10_item).filter
        (fun c => c.text.isSome)) :=
  c10_order_preserved c1_fetch c1_story [1, 2, 3, 4] c10_item rfl (by decide)
